import Mathlib

/-!
Verification development for the s2exporter event-export pipeline
(package s2exporter: event_converter.go, config.go, s2exporter.go,
s2client.go). The Go code is shallowly embedded: pure conversion code
becomes Lean functions, the stateful exporter and client become explicit
state-passing functions, machine integers become Nat/Int with explicit
reduction modulo 2 ^ 64 where Go uint64 arithmetic wraps, and the network
is an oracle parameter describing attempt outcomes.
-/

namespace S2

/-- Attribute values as stored in the converted attribute maps
(event_converter.go convertValue produces Go string, int64 and bool
scalars among others; these are the scalar shapes the pipeline logic
inspects -- getStringAttr only distinguishes string from non-string). -/
inductive AttrValue where
  | str (s : String)
  | int (i : Int)
  | bool (b : Bool)
deriving DecidableEq

/-- Attribute maps (Go map with string keys) are modelled as association
lists; lookupAttr is the map read. -/
def lookupAttr : List (String × AttrValue) → String → Option AttrValue
  | [], _ => none
  | kv :: rest, key => if kv.1 = key then some kv.2 else lookupAttr rest key

/-- Embeds getStringAttr (event_converter.go): returns the string value of
the key, and the empty string when the key is absent or its value is not
a string. -/
def getStringAttr (attrs : List (String × AttrValue)) (key : String) : String :=
  match lookupAttr attrs key with
  | some (AttrValue.str s) => s
  | _ => ""

/-- Embeds the resource-attribute merge loop at the top of convertSpan:
every resource attribute whose key is not already present among the span
attributes is added; span-level values win on collision. -/
def mergeAttrs (spanAttrs resourceAttrs : List (String × AttrValue)) :
    List (String × AttrValue) :=
  resourceAttrs.foldl
    (fun acc kv => if (lookupAttr acc kv.1).isSome then acc else acc ++ [kv])
    spanAttrs

def AttrConversationID : String := "gen_ai.conversation.id"

def AttrAgentID : String := "gen_ai.agent.id"

def AttrAgentName : String := "gen_ai.agent.name"

def AttrOperationName : String := "gen_ai.operation.name"

def AttrToolName : String := "gen_ai.tool.name"

def AttrToolCallID : String := "gen_ai.tool.call.id"

def AttrToolCallArgs : String := "gen_ai.tool.call.arguments"

def AttrToolCallResult : String := "gen_ai.tool.call.result"

def AttrInputMessages : String := "gen_ai.input.messages"

def AttrOutputMessages : String := "gen_ai.output.messages"

def AttrSystemPrompt : String := "gen_ai.system_instructions"

def AttrProviderName : String := "gen_ai.provider.name"

def AttrRequestModel : String := "gen_ai.request.model"

def AttrResponseModel : String := "gen_ai.response.model"

def AttrInputTokens : String := "gen_ai.usage.input_tokens"

def AttrOutputTokens : String := "gen_ai.usage.output_tokens"

/-- The allow-list of filterGenAIAttributes (event_converter.go). -/
def genAIKeys : List String :=
  [AttrConversationID, AttrAgentID, AttrAgentName, AttrOperationName,
   AttrToolName, AttrToolCallID, AttrToolCallArgs, AttrToolCallResult,
   AttrInputMessages, AttrOutputMessages, AttrSystemPrompt,
   AttrProviderName, AttrRequestModel, AttrResponseModel,
   AttrInputTokens, AttrOutputTokens]

/-- Embeds filterGenAIAttributes: keeps only the allow-listed keys. -/
def filterGenAIAttributes (attrs : List (String × AttrValue)) :
    List (String × AttrValue) :=
  genAIKeys.foldl
    (fun acc key =>
      match lookupAttr attrs key with
      | some v => acc ++ [(key, v)]
      | none => acc)
    []

/-- Span status code (ptrace.StatusCode: Unset, Ok, Error). -/
inductive StatusCode where
  | unset
  | ok
  | error
deriving DecidableEq

/-- A span-like record as the converter consumes it (ptrace.Span):
identifiers are byte lists (16 bytes for a trace id, 8 for a span id),
timestamps are uint64 nanoseconds modelled as Nat. -/
structure Span where
  name : String
  traceID : List Nat
  spanID : List Nat
  parentSpanID : List Nat
  startTimestamp : Nat
  endTimestamp : Nat
  statusCode : StatusCode
  attributes : List (String × AttrValue)
deriving DecidableEq

/-- Lowercase hex digit of a value below 16 (pcommon id String()). -/
def hexChar (n : Nat) : Char :=
  if n < 10 then Char.ofNat (48 + n) else Char.ofNat (87 + n)

/-- Two lowercase hex digits of one byte. -/
def byteToHex (b : Nat) : String :=
  String.mk [hexChar (b / 16 % 16), hexChar (b % 16)]

/-- Lowercase hex string of a byte list: the String() form of trace and
span identifiers. -/
def bytesToHex (bs : List Nat) : String :=
  String.join (bs.map byteToHex)

/-- IsEmpty of a pcommon id: all bytes zero. -/
def idIsEmpty (bs : List Nat) : Bool :=
  bs.all (fun b => b = 0)

/-- Reinterpret a uint64 value as a signed int64 (the Go conversion
time.Duration(x) applied to a uint64 difference). -/
def toSigned64 (n : Nat) : Int :=
  let m : Nat := n % 2 ^ 64
  if m < 2 ^ 63 then (m : Int) else (m : Int) - 2 ^ 64

/-- Go uint64 subtraction a - b, wrapping modulo 2 ^ 64. -/
def uint64Sub (a b : Nat) : Nat :=
  (a % 2 ^ 64 + (2 ^ 64 - b % 2 ^ 64)) % 2 ^ 64

/-- Embeds the Duration field computation of convertSpan:
time.Duration(span.EndTimestamp() - span.StartTimestamp()), a uint64
subtraction reinterpreted as a signed nanosecond count. -/
def durationNs (startTs endTs : Nat) : Int :=
  toSigned64 (uint64Sub endTs startTs)

/-- The converted event (S2Event in event_converter.go). Duration is the
int64 nanosecond count; timestamp carries the start timestamp verbatim. -/
structure S2Event where
  timestamp : Nat
  traceID : String
  spanID : String
  parentSpanID : String
  conversationID : String
  operationType : String
  spanName : String
  duration : Int
  status : String
  attributes : List (String × AttrValue)
deriving DecidableEq

/-- Embeds convertSpan (event_converter.go): merges attributes, resolves
the conversation id with trace-id fallback, the operation type with
the unknown fallback, the status from the status code, the optional
parent span id, and the wrapped duration. Total: no error path exists. -/
def convertSpan (span : Span) (resourceAttrs : List (String × AttrValue)) : S2Event :=
  let attrs := mergeAttrs span.attributes resourceAttrs
  let conversationID :=
    let c := getStringAttr attrs AttrConversationID
    if c = "" then bytesToHex span.traceID else c
  let operationType :=
    let o := getStringAttr attrs AttrOperationName
    if o = "" then "unknown" else o
  let status := if span.statusCode = StatusCode.error then "error" else "ok"
  let parentSpanID :=
    if idIsEmpty span.parentSpanID then "" else bytesToHex span.parentSpanID
  { timestamp := span.startTimestamp
    traceID := bytesToHex span.traceID
    spanID := bytesToHex span.spanID
    parentSpanID := parentSpanID
    conversationID := conversationID
    operationType := operationType
    spanName := span.name
    duration := durationNs span.startTimestamp span.endTimestamp
    status := status
    attributes := filterGenAIAttributes attrs }

/-- One scope-spans group (ptrace.ScopeSpans). -/
structure ScopeSpans where
  spans : List Span
deriving DecidableEq

/-- One resource-spans group with its resource attributes. -/
structure ResourceSpans where
  resourceAttributes : List (String × AttrValue)
  scopeSpans : List ScopeSpans
deriving DecidableEq

/-- A trace batch (ptrace.Traces). -/
structure Traces where
  resourceSpans : List ResourceSpans
deriving DecidableEq

/-- Embeds ConvertTraces: the three nested loops over resource spans,
scope spans and spans, converting every span with its resource
attributes, in order. -/
def ConvertTraces (td : Traces) : List S2Event :=
  (td.resourceSpans.map (fun rs =>
    (rs.scopeSpans.map (fun ss =>
      ss.spans.map (fun span => convertSpan span rs.resourceAttributes))).flatten)).flatten

/-- Number of spans a trace batch holds. -/
def spanCount (td : Traces) : Nat :=
  (td.resourceSpans.map (fun rs =>
    (rs.scopeSpans.map (fun ss => ss.spans.length)).sum)).sum

/-- The exporter configuration (config.go). BatchSize is a Go int and
FlushInterval a time.Duration (int64 nanoseconds); both are modelled as
Int so that non-positive values exist. -/
structure Config where
  Endpoint : String
  APIKey : String
  StreamPrefix : String
  BatchSize : Int
  FlushInterval : Int
deriving DecidableEq

/-- Embeds Config.Validate (config.go): empty endpoint or api key is an
error; non-positive batch size becomes 100, non-positive flush interval
becomes 5 seconds (in nanoseconds), empty stream prefix becomes
agent-session-. The mutated config is returned on success. -/
def Config.Validate (c : Config) : Except String Config :=
  if c.Endpoint = "" then Except.error "endpoint is required"
  else if c.APIKey = "" then Except.error "api_key is required"
  else
    let c1 := if c.BatchSize ≤ 0 then { c with BatchSize := 100 } else c
    let c2 := if c1.FlushInterval ≤ 0 then { c1 with FlushInterval := 5000000000 } else c1
    let c3 := if c2.StreamPrefix = "" then { c2 with StreamPrefix := "agent-session-" } else c2
    Except.ok c3

/-- Embeds getStreamID (s2exporter.go): empty conversation id becomes the
default token, then the configured prefix is prepended. -/
def getStreamID (cfg : Config) (conversationID : String) : String :=
  cfg.StreamPrefix ++ (if conversationID = "" then "default" else conversationID)

/-- Reads the pending-event map (Go map read buffers[streamID]; a missing
key reads as the empty slice). The map is modelled as an association list
whose keys stay distinct, since bufSet updates in place or appends a new
key. -/
def bufGet : List (String × List S2Event) → String → List S2Event
  | [], _ => []
  | kv :: rest, sid => if kv.1 = sid then kv.2 else bufGet rest sid

/-- Writes the pending-event map (Go map write buffers[streamID] = evs). -/
def bufSet : List (String × List S2Event) → String → List S2Event →
    List (String × List S2Event)
  | [], sid, evs => [(sid, evs)]
  | kv :: rest, sid, evs =>
    if kv.1 = sid then (sid, evs) :: rest else kv :: bufSet rest sid evs

/-- Observable exporter state: the per-partition pending buffers and the
chronological log of AppendEvents calls the client issued (stream id and
the batch sent). -/
structure ExporterState where
  buffers : List (String × List S2Event)
  appendCalls : List (String × List S2Event)
deriving DecidableEq

/-- The freshly constructed exporter (newS2Exporter): empty buffers, no
calls issued yet. -/
def initialState : ExporterState :=
  { buffers := [], appendCalls := [] }

/-- Embeds flushBatch (s2exporter.go): an empty batch is a no-op; then
EnsureStream runs, and only if it succeeds (oracle ensureOk) is the
AppendEvents call issued. An AppendEvents call that returns an error was
still issued, so it is logged either way. -/
def flushBatch (ensureOk : String → Bool) (st : ExporterState) (sid : String)
    (events : List S2Event) : ExporterState :=
  if events.isEmpty then st
  else if ensureOk sid then { st with appendCalls := st.appendCalls ++ [(sid, events)] }
  else st

/-- Embeds the per-event body of the pushTraces loop: append the event to
its partition buffer; if the buffer length now reaches the configured
batch size, swap the buffer out for an empty one and flush the swapped
batch. -/
def ingestEvent (cfg : Config) (ensureOk : String → Bool) (st : ExporterState)
    (event : S2Event) : ExporterState :=
  let sid := getStreamID cfg event.conversationID
  let buf := bufGet st.buffers sid ++ [event]
  if cfg.BatchSize ≤ (buf.length : Int) then
    flushBatch ensureOk { st with buffers := bufSet st.buffers sid [] } sid buf
  else
    { st with buffers := bufSet st.buffers sid buf }

/-- Embeds pushTraces (s2exporter.go): convert the batch, then ingest
every resulting event in order. -/
def pushTraces (cfg : Config) (ensureOk : String → Bool) (st : ExporterState)
    (td : Traces) : ExporterState :=
  (ConvertTraces td).foldl (ingestEvent cfg ensureOk) st

/-- Embeds flushAllBuffers (s2exporter.go): every non-empty partition
buffer is swapped out for an empty one, then each swapped batch is
flushed. -/
def flushAllBuffers (ensureOk : String → Bool) (st : ExporterState) : ExporterState :=
  let toFlush := st.buffers.filter (fun kv => !kv.2.isEmpty)
  let cleared : ExporterState :=
    { st with buffers := st.buffers.map (fun kv => (kv.1, ([] : List S2Event))) }
  toFlush.foldl (fun acc kv => flushBatch ensureOk acc kv.1 kv.2) cleared

/-- Embeds the buffer-draining step of shutdown (s2exporter.go): after the
flush timer has stopped, one final flushAllBuffers runs before shutdown
returns. -/
def shutdown (ensureOk : String → Bool) (st : ExporterState) : ExporterState :=
  flushAllBuffers ensureOk st

/-- Concatenation of the batches appended to one stream, in issue order:
the per-partition content of the append-call log. -/
def appendsFor : List (String × List S2Event) → String → List S2Event
  | [], _ => []
  | c :: rest, sid => (if c.1 = sid then c.2 else []) ++ appendsFor rest sid

/-- The events of a list routed to one stream, in order. -/
def eventsFor (cfg : Config) : List S2Event → String → List S2Event
  | [], _ => []
  | ev :: rest, sid =>
    (if getStreamID cfg ev.conversationID = sid then [ev] else []) ++
      eventsFor cfg rest sid

/-- Client state (s2client.go S2Client): the known-stream cache and the
chronological log of createStream network calls issued. -/
structure ClientState where
  knownStreams : List String
  createCalls : List String
deriving DecidableEq

/-- The freshly constructed client (NewS2Client): empty cache, no calls. -/
def initialClient : ClientState :=
  { knownStreams := [], createCalls := [] }

/-- Embeds EnsureStream (s2client.go) as observed by one caller at a time
(the double-checked lock collapses to one cache check in a sequential
execution): a cached key returns success with no network call; otherwise
createStream is called (oracle createOk tells whether it returns nil,
conflict responses included), and only on success is the key cached.
Returns the new state and whether the call succeeded. -/
def EnsureStream (createOk : String → Bool) (st : ClientState) (streamID : String) :
    ClientState × Bool :=
  if streamID ∈ st.knownStreams then (st, true)
  else
    let st1 : ClientState := { st with createCalls := st.createCalls ++ [streamID] }
    if createOk streamID then
      ({ st1 with knownStreams := st1.knownStreams ++ [streamID] }, true)
    else (st1, false)

/-- Outcome of one HTTP attempt as doWithRetry observes it: either the
transport fails, or a response with a status code arrives. -/
inductive AttemptOutcome where
  | transportError
  | response (status : Nat)
deriving DecidableEq

/-- What doWithRetry returns to its caller. -/
inductive RetryResult where
  | ok (status : Nat)
  | cancelled
  | exhausted
deriving DecidableEq

/-- An attempt outcome on which the loop retries: transport failure or a
server error status of at least 500. -/
def failedAttempt : AttemptOutcome → Prop
  | AttemptOutcome.transportError => True
  | AttemptOutcome.response s => 500 ≤ s

/-- The request body as the transport sees it: the byte data of the
current reader and the read position the transport has consumed up to. -/
structure ReqBody where
  data : List Nat
  pos : Nat
deriving DecidableEq

/-- io.ReadAll on the current body reader: the bytes not yet consumed. -/
def readAllBody (b : ReqBody) : List Nat :=
  b.data.drop b.pos

/-- What one doWithRetry call did: the value returned, how many request
attempts were actually issued, and the body content available to the
transport on each issued attempt, in order. -/
structure RetryTrace where
  result : RetryResult
  attemptsIssued : Nat
  sentBodies : List (List Nat)
deriving DecidableEq

/-- Embeds the loop of doWithRetry (s2client.go), one constructor level
per remaining loop iteration. For attempt indices above zero the loop
first returns the cancellation error if the external signal fired during
the backoff wait (oracle cancelled, indexed by the attempt the wait
precedes), then rewinds the body by reading whatever the previous
attempts left unconsumed and making that the new reader. The attempt
then sends the readable body; the oracle consumed says how many of its
bytes the transport consumed before the attempt resolved (a delivered
request is fully consumed). A transport error or a status of at least
500 continues the loop; any other response is returned at once. -/
def doWithRetryGo (outcome : Nat → AttemptOutcome) (cancelled : Nat → Bool)
    (consumed : Nat → Nat) : Nat → Nat → ReqBody → RetryTrace
  | 0, attempt, _ => ⟨RetryResult.exhausted, attempt, []⟩
  | Nat.succ rem, attempt, body =>
    if attempt ≠ 0 ∧ cancelled attempt = true then
      ⟨RetryResult.cancelled, attempt, []⟩
    else
      let body1 : ReqBody :=
        if attempt = 0 then body else { data := readAllBody body, pos := 0 }
      let sent := readAllBody body1
      let bodyAfter : ReqBody :=
        { body1 with pos := min body1.data.length (body1.pos + consumed attempt) }
      match outcome attempt with
      | AttemptOutcome.transportError =>
        let t := doWithRetryGo outcome cancelled consumed rem (attempt + 1) bodyAfter
        ⟨t.result, t.attemptsIssued, sent :: t.sentBodies⟩
      | AttemptOutcome.response s =>
        if 500 ≤ s then
          let t := doWithRetryGo outcome cancelled consumed rem (attempt + 1) bodyAfter
          ⟨t.result, t.attemptsIssued, sent :: t.sentBodies⟩
        else ⟨RetryResult.ok s, attempt + 1, [sent]⟩

/-- doWithRetry (s2client.go) on a fresh request with the given body and
maxRetries, under the given network, cancellation and consumption
environment. -/
def doWithRetry (outcome : Nat → AttemptOutcome) (cancelled : Nat → Bool)
    (consumed : Nat → Nat) (maxRetries : Nat) (body : List Nat) : RetryTrace :=
  doWithRetryGo outcome cancelled consumed maxRetries 0 { data := body, pos := 0 }

/-- A concrete validated configuration with batch size 2, used to exercise
the theorems on concrete inputs. -/
def cfgW : Config :=
  { Endpoint := "https://api.s2.dev", APIKey := "key",
    StreamPrefix := "agent-session-", BatchSize := 2, FlushInterval := 5000000000 }

/-- A concrete span carrying a conversation id and an operation name. -/
def spanW1 : Span :=
  { name := "one", traceID := [1, 2, 3, 4, 5, 6, 7, 8, 9, 10, 11, 12, 13, 14, 15, 16],
    spanID := [1, 2, 3, 4, 5, 6, 7, 8], parentSpanID := [0, 0, 0, 0, 0, 0, 0, 0],
    startTimestamp := 100, endTimestamp := 200, statusCode := StatusCode.ok,
    attributes := [(AttrConversationID, AttrValue.str "c1"),
                   (AttrOperationName, AttrValue.str "chat")] }

/-- A concrete span for a second conversation. -/
def spanW2 : Span :=
  { spanW1 with
    name := "two", spanID := [1, 1, 1, 1, 1, 1, 1, 1],
    attributes := [(AttrConversationID, AttrValue.str "c2"),
                   (AttrOperationName, AttrValue.str "execute_tool")] }

/-- A third concrete span, again for the first conversation. -/
def spanW3 : Span :=
  { spanW1 with
    name := "three", spanID := [2, 2, 2, 2, 2, 2, 2, 2],
    attributes := [(AttrConversationID, AttrValue.str "c1"),
                   (AttrOperationName, AttrValue.str "invoke_agent")] }

/-- A concrete trace batch with three spans in one scope. -/
def tdW : Traces :=
  { resourceSpans := [{ resourceAttributes := [("service.name", AttrValue.str "svc")],
                        scopeSpans := [{ spans := [spanW1, spanW2, spanW3] }] }] }

/-- A concrete span whose conversation-id attribute is a non-string value. -/
def spanC9 : Span :=
  { spanW1 with attributes := [(AttrConversationID, AttrValue.int 7)] }

/-- A concrete span whose end timestamp precedes its start timestamp by
more than 2 ^ 63 nanoseconds. -/
def spanC10 : Span :=
  { spanW1 with startTimestamp := 2 ^ 63 + 1, endTimestamp := 0, attributes := [] }

/-- A concrete attempt-outcome environment: the first two attempts draw a
503 response, the third a 200 response. -/
def outcomeW : Nat → AttemptOutcome :=
  fun i => if i < 2 then AttemptOutcome.response 503 else AttemptOutcome.response 200

/-- A concrete configuration with an empty endpoint. -/
def cfgNoEndpoint : Config :=
  { Endpoint := "", APIKey := "key", StreamPrefix := "",
    BatchSize := 0, FlushInterval := 0 }

/-- A concrete configuration with endpoint and credential set but batch
size, flush interval and stream prefix unset. -/
def cfgUnsetRest : Config :=
  { Endpoint := "e", APIKey := "k", StreamPrefix := "",
    BatchSize := 0, FlushInterval := 0 }

/-- Pipeline invariant tying the processed events to the observable state:
buffer keys are distinct, and per stream the appended batches followed by
the pending buffer are exactly the events routed to that stream, in
arrival order. -/
def GoodState (cfg : Config) (done : List S2Event) (st : ExporterState) : Prop :=
  (st.buffers.map Prod.fst).Nodup ∧
  ∀ sid, appendsFor st.appendCalls sid ++ bufGet st.buffers sid =
    eventsFor cfg done sid

lemma bufGet_bufSet_same (b : List (String × List S2Event)) (sid : String)
    (evs : List S2Event) : bufGet (bufSet b sid evs) sid = evs := by
  induction b with
  | nil => simp [bufGet, bufSet]
  | cons kv rest ih =>
    by_cases h : kv.1 = sid
    · simp [bufGet, bufSet, h]
    · simp [bufGet, bufSet, h, ih]

lemma bufGet_bufSet_other (b : List (String × List S2Event)) (sid sid2 : String)
    (evs : List S2Event) (h : sid2 ≠ sid) :
    bufGet (bufSet b sid evs) sid2 = bufGet b sid2 := by
  have h2 : ¬ sid = sid2 := fun hh => h hh.symm
  induction b with
  | nil => simp [bufGet, bufSet, h2]
  | cons kv rest ih =>
    by_cases hk : kv.1 = sid
    · have hk2 : ¬ kv.1 = sid2 := by rw [hk]; exact h2
      simp [bufGet, bufSet, hk, hk2, h2, h]
    · by_cases hk2 : kv.1 = sid2
      · simp [bufGet, bufSet, hk, hk2, h, ih]
      · simp [bufGet, bufSet, hk, hk2, ih]

lemma keys_bufSet (b : List (String × List S2Event)) (sid : String)
    (evs : List S2Event) :
    (bufSet b sid evs).map Prod.fst =
      (if sid ∈ b.map Prod.fst then b.map Prod.fst else b.map Prod.fst ++ [sid]) := by
  induction b with
  | nil => simp [bufSet]
  | cons kv rest ih =>
    by_cases hk : kv.1 = sid
    · rw [← hk]
      simp [bufSet, hk]
    · have hne : ¬ sid = kv.1 := fun hh => hk hh.symm
      by_cases hmem : sid ∈ rest.map Prod.fst
      · simp [bufSet, hk, hmem, hne, ih]
      · simp [bufSet, hk, hmem, hne, ih]

lemma nodup_keys_bufSet (b : List (String × List S2Event)) (sid : String)
    (evs : List S2Event) (hnd : (b.map Prod.fst).Nodup) :
    ((bufSet b sid evs).map Prod.fst).Nodup := by
  rw [keys_bufSet]
  by_cases hmem : sid ∈ b.map Prod.fst
  · simpa [hmem] using hnd
  · simp [hmem, List.nodup_append, hnd]

lemma appendsFor_append (a b : List (String × List S2Event)) (sid : String) :
    appendsFor (a ++ b) sid = appendsFor a sid ++ appendsFor b sid := by
  induction a with
  | nil => simp [appendsFor]
  | cons c rest ih => simp [appendsFor, ih]

lemma eventsFor_append (cfg : Config) (a b : List S2Event) (sid : String) :
    eventsFor cfg (a ++ b) sid = eventsFor cfg a sid ++ eventsFor cfg b sid := by
  induction a with
  | nil => simp [eventsFor]
  | cons ev rest ih => simp [eventsFor, ih]

lemma appendsFor_not_mem (calls : List (String × List S2Event)) (sid : String)
    (h : sid ∉ calls.map Prod.fst) : appendsFor calls sid = [] := by
  induction calls with
  | nil => rfl
  | cons c rest ih =>
    rw [List.map_cons, List.mem_cons, not_or] at h
    have hc : ¬ c.1 = sid := fun hh => h.1 hh.symm
    simp [appendsFor, hc, ih h.2]

lemma appendsFor_filter_nonempty (b : List (String × List S2Event)) (sid : String)
    (hnd : (b.map Prod.fst).Nodup) :
    appendsFor (b.filter (fun kv => !kv.2.isEmpty)) sid = bufGet b sid := by
  induction b with
  | nil => rfl
  | cons kv rest ih =>
    rw [List.map_cons, List.nodup_cons] at hnd
    by_cases hk : kv.1 = sid
    · have hrest : appendsFor (rest.filter (fun kv => !kv.2.isEmpty)) sid = [] := by
        apply appendsFor_not_mem
        intro hmem
        apply hnd.1
        rw [← hk] at hmem
        obtain ⟨kv2, hkv2, hfst⟩ := List.mem_map.mp hmem
        exact hfst ▸ List.mem_map_of_mem Prod.fst (List.mem_filter.mp hkv2).1
      by_cases he : kv.2.isEmpty
      · have hkv : kv.2 = [] := List.isEmpty_iff.mp he
        rw [List.filter_cons]
        simp [he, bufGet, hk, hrest, hkv]
      · rw [List.filter_cons]
        simp only [he, Bool.not_false]
        simp [appendsFor, bufGet, hk, hrest]
    · rw [List.filter_cons]
      by_cases he : kv.2.isEmpty
      · simp [he, bufGet, hk, ih hnd.2]
      · simp [he, appendsFor, bufGet, hk, ih hnd.2]

lemma bufGet_map_clear (b : List (String × List S2Event)) (sid : String) :
    bufGet (b.map (fun kv => (kv.1, ([] : List S2Event)))) sid = [] := by
  induction b with
  | nil => rfl
  | cons kv rest ih =>
    by_cases hk : kv.1 = sid
    · simp [bufGet, hk]
    · simp [bufGet, hk, ih]

lemma foldl_flushBatch_ok (ensureOk : String → Bool)
    (hok : ∀ s, ensureOk s = true) (l : List (String × List S2Event))
    (st : ExporterState) (hne : ∀ kv ∈ l, kv.2.isEmpty = false) :
    l.foldl (fun acc kv => flushBatch ensureOk acc kv.1 kv.2) st =
      { st with appendCalls := st.appendCalls ++ l } := by
  induction l generalizing st with
  | nil => simp
  | cons kv rest ih =>
    have h1 : kv.2.isEmpty = false := hne kv (by simp)
    have h2 : ∀ kv2 ∈ rest, kv2.2.isEmpty = false := fun kv2 hm => hne kv2 (by simp [hm])
    simp only [List.foldl_cons]
    rw [show flushBatch ensureOk st kv.1 kv.2 =
        { st with appendCalls := st.appendCalls ++ [(kv.1, kv.2)] } by
      simp [flushBatch, h1, hok kv.1]]
    rw [ih _ h2]
    simp

lemma flushAllBuffers_spec (ensureOk : String → Bool)
    (hok : ∀ s, ensureOk s = true) (st : ExporterState) :
    (flushAllBuffers ensureOk st).appendCalls =
      st.appendCalls ++ st.buffers.filter (fun kv => !kv.2.isEmpty) ∧
    (flushAllBuffers ensureOk st).buffers =
      st.buffers.map (fun kv => (kv.1, ([] : List S2Event))) := by
  have hne : ∀ kv ∈ st.buffers.filter (fun kv => !kv.2.isEmpty), kv.2.isEmpty = false := by
    intro kv hm
    have := (List.mem_filter.mp hm).2
    simpa using this
  unfold flushAllBuffers
  rw [foldl_flushBatch_ok ensureOk hok _ _ hne]
  exact ⟨rfl, rfl⟩

lemma ingestEvent_good (cfg : Config) (ensureOk : String → Bool)
    (hok : ∀ s, ensureOk s = true) (done : List S2Event) (st : ExporterState)
    (ev : S2Event) (hst : GoodState cfg done st) :
    GoodState cfg (done ++ [ev]) (ingestEvent cfg ensureOk st ev) := by
  obtain ⟨hnd, hinv⟩ := hst
  have hbuf : ∀ l : List S2Event, (l ++ [ev]).isEmpty = false := by simp
  simp only [ingestEvent]
  split
  · refine ⟨?_, ?_⟩
    · simpa [flushBatch, hbuf, hok] using nodup_keys_bufSet st.buffers
        (getStreamID cfg ev.conversationID) [] hnd
    · intro sid
      simp only [flushBatch, hbuf, hok, Bool.false_eq_true, if_false, if_true,
        eventsFor_append]
      rw [← hinv sid, appendsFor_append]
      by_cases hs : sid = getStreamID cfg ev.conversationID
      · rw [hs, bufGet_bufSet_same]
        simp [appendsFor, eventsFor]
      · rw [bufGet_bufSet_other _ _ _ _ hs]
        have hs2 : ¬ getStreamID cfg ev.conversationID = sid := fun hh => hs hh.symm
        simp [appendsFor, eventsFor, hs2]
  · refine ⟨?_, ?_⟩
    · exact nodup_keys_bufSet st.buffers _ _ hnd
    · intro sid
      simp only [eventsFor_append]
      rw [← hinv sid]
      by_cases hs : sid = getStreamID cfg ev.conversationID
      · rw [hs, bufGet_bufSet_same]
        simp [eventsFor]
      · rw [bufGet_bufSet_other _ _ _ _ hs]
        have hs2 : ¬ getStreamID cfg ev.conversationID = sid := fun hh => hs hh.symm
        simp [eventsFor, hs2]

lemma foldl_ingest_good (cfg : Config) (ensureOk : String → Bool)
    (hok : ∀ s, ensureOk s = true) (evs : List S2Event) :
    ∀ (done : List S2Event) (st : ExporterState), GoodState cfg done st →
      GoodState cfg (done ++ evs) (evs.foldl (ingestEvent cfg ensureOk) st) := by
  induction evs with
  | nil => intro done st h; simpa using h
  | cons ev rest ih =>
    intro done st h
    have h1 := ingestEvent_good cfg ensureOk hok done st ev h
    have h2 := ih (done ++ [ev]) _ h1
    simpa using h2

/-- C1: for every trace batch, ingesting it through pushTraces and then
running the shutdown drain delivers, for every stream, exactly the events
routed to that stream, each exactly once and in original arrival order,
as the concatenation of the issued append calls for that stream; and no
partition buffer retains an event after shutdown. The proviso that no
append call fails is formalised by the oracle hypothesis that every
remote EnsureStream interaction succeeds, which in the code is the only
way a flush can end without issuing its append call. -/
theorem pushTraces_shutdown_delivers (cfg : Config) (ensureOk : String → Bool)
    (td : Traces) (sid : String) (hok : ∀ s, ensureOk s = true) :
    appendsFor (shutdown ensureOk (pushTraces cfg ensureOk initialState td)).appendCalls sid =
      eventsFor cfg (ConvertTraces td) sid ∧
    bufGet (shutdown ensureOk (pushTraces cfg ensureOk initialState td)).buffers sid = [] := by
  have h0 : GoodState cfg [] initialState := by
    refine ⟨by simp [initialState], fun sid2 => ?_⟩
    simp [initialState, appendsFor, bufGet, eventsFor]
  have h1 : GoodState cfg (ConvertTraces td)
      (pushTraces cfg ensureOk initialState td) := by
    have := foldl_ingest_good cfg ensureOk hok (ConvertTraces td) [] initialState h0
    simpa [pushTraces] using this
  obtain ⟨hnd, hinv⟩ := h1
  obtain ⟨hcalls, hbufs⟩ :=
    flushAllBuffers_spec ensureOk hok (pushTraces cfg ensureOk initialState td)
  constructor
  · rw [shutdown, hcalls, appendsFor_append, appendsFor_filter_nonempty _ _ hnd]
    exact hinv sid
  · rw [shutdown, hbufs]
    exact bufGet_map_clear _ sid

/-- C1 witness: the delivery theorem applied to the concrete three-span
batch under an always-successful remote, at the stream of the first
conversation. -/
theorem pushTraces_shutdown_delivers_witness :
    appendsFor (shutdown (fun _ => true)
        (pushTraces cfgW (fun _ => true) initialState tdW)).appendCalls
        "agent-session-c1" =
      eventsFor cfgW (ConvertTraces tdW) "agent-session-c1" ∧
    bufGet (shutdown (fun _ => true)
        (pushTraces cfgW (fun _ => true) initialState tdW)).buffers
        "agent-session-c1" = [] :=
  pushTraces_shutdown_delivers cfgW (fun _ => true) tdW "agent-session-c1"
    (fun _ => rfl)

/-- C6: when an ingested event makes its partition buffer reach exactly
the configured batch size, the swapped batch of exactly BatchSize events
is flushed at once as one append call, the partition buffer is left
empty, and a subsequent event for the same partition accumulates in the
fresh buffer. -/
theorem ingest_threshold_flushes (cfg : Config) (ensureOk : String → Bool)
    (st : ExporterState) (ev ev2 : S2Event)
    (hok : ensureOk (getStreamID cfg ev.conversationID) = true)
    (hreach : ((bufGet st.buffers (getStreamID cfg ev.conversationID)).length : Int) + 1 =
      cfg.BatchSize)
    (hsame : getStreamID cfg ev2.conversationID = getStreamID cfg ev.conversationID)
    (hbig : 2 ≤ cfg.BatchSize) :
    (ingestEvent cfg ensureOk st ev).appendCalls =
      st.appendCalls ++ [(getStreamID cfg ev.conversationID,
        bufGet st.buffers (getStreamID cfg ev.conversationID) ++ [ev])] ∧
    ((bufGet st.buffers (getStreamID cfg ev.conversationID) ++ [ev]).length : Int) =
      cfg.BatchSize ∧
    bufGet (ingestEvent cfg ensureOk st ev).buffers
      (getStreamID cfg ev.conversationID) = [] ∧
    bufGet (ingestEvent cfg ensureOk (ingestEvent cfg ensureOk st ev) ev2).buffers
      (getStreamID cfg ev.conversationID) = [ev2] := by
  have hlen : ((bufGet st.buffers (getStreamID cfg ev.conversationID) ++ [ev]).length : Int) =
      cfg.BatchSize := by
    rw [List.length_append, List.length_singleton]
    push_cast
    omega
  have htrig : cfg.BatchSize ≤
      ((bufGet st.buffers (getStreamID cfg ev.conversationID) ++ [ev]).length : Int) :=
    le_of_eq hlen.symm
  have hone : ingestEvent cfg ensureOk st ev =
      { buffers := bufSet st.buffers (getStreamID cfg ev.conversationID) [],
        appendCalls := st.appendCalls ++ [(getStreamID cfg ev.conversationID,
          bufGet st.buffers (getStreamID cfg ev.conversationID) ++ [ev])] } := by
    simp only [ingestEvent, if_pos htrig, flushBatch]
    simp [hok]
  have hempty : bufGet (ingestEvent cfg ensureOk st ev).buffers
      (getStreamID cfg ev.conversationID) = [] := by
    rw [hone]
    exact bufGet_bufSet_same _ _ _
  refine ⟨by rw [hone], hlen, hempty, ?_⟩
  generalize hst1 : ingestEvent cfg ensureOk st ev = st1 at hempty ⊢
  have hnotrig : ¬ cfg.BatchSize ≤
      ((bufGet st1.buffers (getStreamID cfg ev2.conversationID) ++ [ev2]).length : Int) := by
    rw [hsame, hempty]
    simp only [List.nil_append, List.length_cons, List.length_nil]
    push_cast
    omega
  simp only [ingestEvent, if_neg hnotrig]
  rw [hsame, hempty]
  have hfin := bufGet_bufSet_same st1.buffers (getStreamID cfg ev.conversationID) ([] ++ [ev2])
  simpa using hfin

/-- C6 witness: with batch size 2, a buffer already holding one event for
the stream of the first conversation, ingesting a second event for that
conversation flushes exactly the two events and leaves the buffer empty,
and a third event starts a fresh buffer. -/
theorem ingest_threshold_flushes_witness :
    (ingestEvent cfgW (fun _ => true)
        { buffers := [("agent-session-c1", [convertSpan spanW1 []])], appendCalls := [] }
        (convertSpan spanW3 [])).appendCalls =
      [] ++ [("agent-session-c1",
        bufGet [("agent-session-c1", [convertSpan spanW1 []])]
          (getStreamID cfgW (convertSpan spanW3 []).conversationID) ++
          [convertSpan spanW3 []])] ∧
    ((bufGet [("agent-session-c1", [convertSpan spanW1 []])]
        (getStreamID cfgW (convertSpan spanW3 []).conversationID) ++
        [convertSpan spanW3 []]).length : Int) = cfgW.BatchSize ∧
    bufGet (ingestEvent cfgW (fun _ => true)
        { buffers := [("agent-session-c1", [convertSpan spanW1 []])], appendCalls := [] }
        (convertSpan spanW3 [])).buffers
      (getStreamID cfgW (convertSpan spanW3 []).conversationID) = [] ∧
    bufGet (ingestEvent cfgW (fun _ => true)
        (ingestEvent cfgW (fun _ => true)
          { buffers := [("agent-session-c1", [convertSpan spanW1 []])], appendCalls := [] }
          (convertSpan spanW3 []))
        (convertSpan spanW1 [])).buffers
      (getStreamID cfgW (convertSpan spanW3 []).conversationID) = [convertSpan spanW1 []] := by
  have h := ingest_threshold_flushes cfgW (fun _ => true)
    { buffers := [("agent-session-c1", [convertSpan spanW1 []])], appendCalls := [] }
    (convertSpan spanW3 []) (convertSpan spanW1 [])
    rfl (by decide) (by decide) (by decide)
  simpa using h

/-- C5 counterexample: when the creation call fails (for example a 500
after retry exhaustion), the key is not cached and a second EnsureStream
call for the same key issues a second creation network call, so two
sequential calls are not limited to one creation call in general. -/
theorem ensureStream_twice_failure_cex :
    ((EnsureStream (fun _ => false)
      ((EnsureStream (fun _ => false) initialClient "s").1) "s").1).createCalls =
      ["s", "s"] := by
  decide

/-- C5 amended: provided the first EnsureStream call for the key
succeeds, the key is recorded in the known-stream cache, every later call
for the key returns success with no network call and no state change (so
two calls issue at most one creation call), at most one creation call was
issued by the first call, and no previously cached key is evicted. -/
theorem ensureStream_idempotent_after_success (createOk createOk2 : String → Bool)
    (st : ClientState) (sid : String)
    (hfirst : (EnsureStream createOk st sid).2 = true) :
    sid ∈ (EnsureStream createOk st sid).1.knownStreams ∧
    EnsureStream createOk2 (EnsureStream createOk st sid).1 sid =
      ((EnsureStream createOk st sid).1, true) ∧
    (EnsureStream createOk st sid).1.createCalls.length ≤ st.createCalls.length + 1 ∧
    ∀ k, k ∈ st.knownStreams → k ∈ (EnsureStream createOk st sid).1.knownStreams := by
  by_cases hmem : sid ∈ st.knownStreams
  · simp only [EnsureStream, if_pos hmem]
    exact ⟨hmem, by simp [EnsureStream, hmem], by omega, fun k hk => hk⟩
  · by_cases hcr : createOk sid = true
    · simp only [EnsureStream, if_neg hmem, hcr, if_true]
      refine ⟨by simp, ?_, by simp, fun k hk => by simp [hk]⟩
      have hmem2 : sid ∈ st.knownStreams ++ [sid] := by simp
      simp [EnsureStream, hmem2]
    · exfalso
      simp only [EnsureStream, if_neg hmem] at hfirst
      rw [if_neg (by simpa using hcr)] at hfirst
      simp at hfirst

/-- C5 witness: the amended idempotence applied concretely: a fresh
client, a succeeding creation call, then a second call. -/
theorem ensureStream_idempotent_after_success_witness :
    "s" ∈ (EnsureStream (fun _ => true) initialClient "s").1.knownStreams ∧
    EnsureStream (fun _ => true) (EnsureStream (fun _ => true) initialClient "s").1 "s" =
      ((EnsureStream (fun _ => true) initialClient "s").1, true) ∧
    (EnsureStream (fun _ => true) initialClient "s").1.createCalls.length ≤
      initialClient.createCalls.length + 1 ∧
    ∀ k, k ∈ initialClient.knownStreams →
      k ∈ (EnsureStream (fun _ => true) initialClient "s").1.knownStreams :=
  ensureStream_idempotent_after_success (fun _ => true) (fun _ => true)
    initialClient "s" (by decide)

lemma doWithRetryGo_attempts_le (outcome : Nat → AttemptOutcome)
    (cancelled : Nat → Bool) (consumed : Nat → Nat) :
    ∀ (rem attempt : Nat) (body : ReqBody),
      (doWithRetryGo outcome cancelled consumed rem attempt body).attemptsIssued ≤
        attempt + rem := by
  intro rem
  induction rem with
  | zero => intro attempt body; simp [doWithRetryGo]
  | succ r ih =>
    intro attempt body
    simp only [doWithRetryGo]
    split
    · exact Nat.le_add_right attempt (r + 1)
    · cases houtcome : outcome attempt with
      | transportError =>
        dsimp only
        exact le_trans (ih (attempt + 1) _) (by omega)
      | response s =>
        dsimp only
        split
        · exact le_trans (ih (attempt + 1) _) (by omega)
        · dsimp only
          omega

lemma doWithRetryGo_all_fail (outcome : Nat → AttemptOutcome)
    (cancelled : Nat → Bool) (consumed : Nat → Nat)
    (hnc : ∀ i, cancelled i = false) :
    ∀ (rem attempt : Nat) (body : ReqBody),
      (∀ i, attempt ≤ i → i < attempt + rem → failedAttempt (outcome i)) →
      (doWithRetryGo outcome cancelled consumed rem attempt body).result =
        RetryResult.exhausted ∧
      (doWithRetryGo outcome cancelled consumed rem attempt body).attemptsIssued =
        attempt + rem := by
  intro rem
  induction rem with
  | zero => intro attempt body _; simp [doWithRetryGo]
  | succ r ih =>
    intro attempt body hfail
    have hf0 : failedAttempt (outcome attempt) := hfail attempt (le_refl attempt) (by omega)
    simp only [doWithRetryGo, hnc attempt, Bool.false_eq_true, and_false, if_false]
    have hrest : ∀ i, attempt + 1 ≤ i → i < (attempt + 1) + r → failedAttempt (outcome i) :=
      fun i h1 h2 => hfail i (by omega) (by omega)
    cases houtcome : outcome attempt with
    | transportError =>
      dsimp only
      refine ⟨(ih (attempt + 1) _ hrest).1, ?_⟩
      rw [(ih (attempt + 1) _ hrest).2]
      omega
    | response s =>
      rw [houtcome] at hf0
      have hs : 500 ≤ s := hf0
      dsimp only
      rw [if_pos hs]
      dsimp only
      refine ⟨(ih (attempt + 1) _ hrest).1, ?_⟩
      rw [(ih (attempt + 1) _ hrest).2]
      omega

lemma doWithRetryGo_cancel (outcome : Nat → AttemptOutcome)
    (cancelled : Nat → Bool) (consumed : Nat → Nat) (j : Nat) (hj0 : j ≠ 0)
    (hc : cancelled j = true) :
    ∀ (rem attempt : Nat) (body : ReqBody), attempt ≤ j → j - attempt < rem →
      (∀ i, attempt ≤ i → i < j → cancelled i = false) →
      (∀ i, attempt ≤ i → i < j → failedAttempt (outcome i)) →
      (doWithRetryGo outcome cancelled consumed rem attempt body).result =
        RetryResult.cancelled ∧
      (doWithRetryGo outcome cancelled consumed rem attempt body).attemptsIssued = j := by
  intro rem
  induction rem with
  | zero => intro attempt body _ hlt _ _; omega
  | succ r ih =>
    intro attempt body hle hlt hquiet hfail
    by_cases heq : attempt = j
    · subst heq
      simp [doWithRetryGo, hj0, hc]
    · have hltj : attempt < j := lt_of_le_of_ne hle heq
      have hnc : cancelled attempt = false := hquiet attempt (le_refl attempt) hltj
      have hf0 : failedAttempt (outcome attempt) := hfail attempt (le_refl attempt) hltj
      simp only [doWithRetryGo, hnc, Bool.false_eq_true, and_false, if_false]
      have harg1 : attempt + 1 ≤ j := hltj
      have harg2 : j - (attempt + 1) < r := by omega
      have harg3 : ∀ i, attempt + 1 ≤ i → i < j → cancelled i = false :=
        fun i h1 h2 => hquiet i (by omega) h2
      have harg4 : ∀ i, attempt + 1 ≤ i → i < j → failedAttempt (outcome i) :=
        fun i h1 h2 => hfail i (by omega) h2
      cases houtcome : outcome attempt with
      | transportError =>
        dsimp only
        exact ⟨(ih (attempt + 1) _ harg1 harg2 harg3 harg4).1,
          (ih (attempt + 1) _ harg1 harg2 harg3 harg4).2⟩
      | response s =>
        rw [houtcome] at hf0
        have hs : 500 ≤ s := hf0
        dsimp only
        rw [if_pos hs]
        dsimp only
        exact ⟨(ih (attempt + 1) _ harg1 harg2 harg3 harg4).1,
          (ih (attempt + 1) _ harg1 harg2 harg3 harg4).2⟩

/-- C3: with maxRetries 3 and no cancellation, doWithRetry issues at most
3 attempts; a first response below 500 is returned at once as success
after exactly one attempt (no retry on any status below 500, 4xx
included); two 503 responses followed by a 200 are observed as success
after exactly 3 attempts; and three failed attempts (transport failure or
status at least 500) end in the max-retries-exceeded error after exactly
3 attempts. -/
theorem doWithRetry_policy (outcome : Nat → AttemptOutcome) (cancelled : Nat → Bool)
    (consumed : Nat → Nat) (body : List Nat)
    (hnc : ∀ i, cancelled i = false) :
    (doWithRetry outcome cancelled consumed 3 body).attemptsIssued ≤ 3 ∧
    (∀ s, s < 500 → outcome 0 = AttemptOutcome.response s →
      (doWithRetry outcome cancelled consumed 3 body).result = RetryResult.ok s ∧
      (doWithRetry outcome cancelled consumed 3 body).attemptsIssued = 1) ∧
    (outcome 0 = AttemptOutcome.response 503 →
      outcome 1 = AttemptOutcome.response 503 →
      outcome 2 = AttemptOutcome.response 200 →
      (doWithRetry outcome cancelled consumed 3 body).result = RetryResult.ok 200 ∧
      (doWithRetry outcome cancelled consumed 3 body).attemptsIssued = 3) ∧
    ((∀ i, i < 3 → failedAttempt (outcome i)) →
      (doWithRetry outcome cancelled consumed 3 body).result = RetryResult.exhausted ∧
      (doWithRetry outcome cancelled consumed 3 body).attemptsIssued = 3) := by
  refine ⟨?_, ?_, ?_, ?_⟩
  · exact doWithRetryGo_attempts_le outcome cancelled consumed 3 0 _
  · intro s hs h0
    simp [doWithRetry, doWithRetryGo, h0, Nat.not_le.mpr hs]
  · intro h0 h1 h2
    simp [doWithRetry, doWithRetryGo, hnc, h0, h1, h2]
  · intro hfail
    have := doWithRetryGo_all_fail outcome cancelled consumed hnc 3 0
      { data := body, pos := 0 } (fun i _ h2 => hfail i (by omega))
    exact this

/-- C3 witness: under the concrete 503, 503, 200 environment the caller
observes success with status 200 after exactly 3 attempts. -/
theorem doWithRetry_policy_witness :
    (doWithRetry outcomeW (fun _ => false) (fun _ => 0) 3 [7]).result =
      RetryResult.ok 200 ∧
    (doWithRetry outcomeW (fun _ => false) (fun _ => 0) 3 [7]).attemptsIssued = 3 :=
  (doWithRetry_policy outcomeW (fun _ => false) (fun _ => 0) [7]
    (fun _ => rfl)).2.2.1 rfl rfl rfl

/-- C4: if the cancellation signal fires during the backoff wait before
attempt index j (so after j issued attempts, each of which failed), the
loop returns the cancellation error having issued exactly j attempts:
the next attempt is never issued. With j = 2 and maxRetries 3 this is
the claim that a request cancelled during the second backoff wait never
issues a third attempt. -/
theorem doWithRetry_cancel_aborts (outcome : Nat → AttemptOutcome)
    (cancelled : Nat → Bool) (consumed : Nat → Nat) (body : List Nat)
    (maxRetries j : Nat) (hj0 : j ≠ 0) (hjm : j < maxRetries)
    (hc : cancelled j = true)
    (hquiet : ∀ i, i < j → cancelled i = false)
    (hfail : ∀ i, i < j → failedAttempt (outcome i)) :
    (doWithRetry outcome cancelled consumed maxRetries body).result =
      RetryResult.cancelled ∧
    (doWithRetry outcome cancelled consumed maxRetries body).attemptsIssued = j := by
  exact doWithRetryGo_cancel outcome cancelled consumed j hj0 hc maxRetries 0
    { data := body, pos := 0 } (Nat.zero_le j) (by omega)
    (fun i _ h2 => hquiet i h2) (fun i _ h2 => hfail i h2)

/-- C4 witness: transport failures on the first two attempts and a
cancellation firing during the second backoff wait yield the
cancellation result after exactly 2 issued attempts, never a third. -/
theorem doWithRetry_cancel_aborts_witness :
    (doWithRetry (fun _ => AttemptOutcome.transportError)
        (fun i => decide (2 ≤ i)) (fun _ => 0) 3 [7]).result =
      RetryResult.cancelled ∧
    (doWithRetry (fun _ => AttemptOutcome.transportError)
        (fun i => decide (2 ≤ i)) (fun _ => 0) 3 [7]).attemptsIssued = 2 :=
  doWithRetry_cancel_aborts (fun _ => AttemptOutcome.transportError)
    (fun i => decide (2 ≤ i)) (fun _ => 0) [7] 3 2 (by decide) (by decide) rfl
    (by decide) (fun _ _ => True.intro)

/-- C2, evaluated at the failing input: a one-byte body, a first attempt
whose request is fully consumed by the transport and answered with 503,
and a succeeding second attempt. The body available to the retry is the
empty remainder, not the original byte: the rewind in doWithRetry reads
the already-consumed reader, so the retried request is not
byte-for-byte identical to the first. -/
theorem doWithRetry_retry_body_differs :
    (doWithRetry
        (fun i => if i = 0 then AttemptOutcome.response 503
                  else AttemptOutcome.response 200)
        (fun _ => false) (fun _ => 2) 3 [1]).sentBodies = [[1], []] ∧
    ([] : List Nat) ≠ [1] := by
  exact ⟨by decide, by decide⟩

lemma durationNs_spec (a b : Nat) (ha : a < 2 ^ 64) (hb : b < 2 ^ 64) :
    (durationNs a b - ((b : Int) - (a : Int))) % 2 ^ 64 = 0 ∧
    -(2 ^ 63) ≤ durationNs a b ∧ durationNs a b < 2 ^ 63 ∧
    (b < a → a - b ≤ 2 ^ 63 → durationNs a b < 0) := by
  simp only [durationNs, toSigned64, uint64Sub]
  have p64 : (2 : Nat) ^ 64 = 18446744073709551616 := by norm_num
  have p63 : (2 : Nat) ^ 63 = 9223372036854775808 := by norm_num
  have q64 : (2 : Int) ^ 64 = 18446744073709551616 := by norm_num
  have q63 : (2 : Int) ^ 63 = 9223372036854775808 := by norm_num
  simp only [p64, p63, q64, q63] at ha hb ⊢
  split_ifs with hm
  · omega
  · omega

/-- C7: the converter is total and produces exactly one event per span:
ConvertTraces yields as many events as there are spans in the batch, and
for any span the conversion degrades missing data to defaults instead of
failing: absent operation-name attribute gives operation type unknown,
absent (or empty) conversation-id string gives the stringified trace
identifier, and the status is error exactly when the span status code is
the error code, ok otherwise. -/
theorem convertTraces_total (td : Traces) (span : Span)
    (resourceAttrs : List (String × AttrValue)) :
    (ConvertTraces td).length = spanCount td ∧
    (lookupAttr (mergeAttrs span.attributes resourceAttrs) AttrOperationName = none →
      (convertSpan span resourceAttrs).operationType = "unknown") ∧
    (getStringAttr (mergeAttrs span.attributes resourceAttrs) AttrConversationID = "" →
      (convertSpan span resourceAttrs).conversationID = bytesToHex span.traceID) ∧
    ((convertSpan span resourceAttrs).status = "error" ↔
      span.statusCode = StatusCode.error) := by
  refine ⟨?_, ?_, ?_, ?_⟩
  · simp only [ConvertTraces, spanCount, List.length_flatten, List.map_map]
    refine congrArg List.sum (List.map_congr_left fun rs _ => ?_)
    simp only [Function.comp_apply, List.length_flatten, List.map_map]
    refine congrArg List.sum (List.map_congr_left fun ss _ => ?_)
    simp [List.length_map]
  · intro h
    simp [convertSpan, getStringAttr, h]
  · intro h
    simp [convertSpan, h]
  · cases hsc : span.statusCode <;> simp [convertSpan, hsc]

/-- C9: a conversation-id attribute whose value is not a string (here and
in general any non-string scalar) reads as the empty string through
getStringAttr, so the converter falls back to the stringified trace
identifier for the event conversation id. -/
theorem convert_nonstring_conversation_falls_back (span : Span)
    (resourceAttrs : List (String × AttrValue)) (v : AttrValue)
    (hv : ∀ s, v ≠ AttrValue.str s)
    (hl : lookupAttr (mergeAttrs span.attributes resourceAttrs)
      AttrConversationID = some v) :
    (convertSpan span resourceAttrs).conversationID = bytesToHex span.traceID := by
  have hg : getStringAttr (mergeAttrs span.attributes resourceAttrs)
      AttrConversationID = "" := by
    unfold getStringAttr
    rw [hl]
    cases v with
    | str s => exact absurd rfl (hv s)
    | int i => rfl
    | bool b => rfl
  simp [convertSpan, hg]

/-- C9 witness: a span whose conversation-id attribute holds the integer
7 produces an event whose conversation id is the hex form of its trace
identifier. -/
theorem convert_nonstring_conversation_falls_back_witness :
    (convertSpan spanC9 []).conversationID = bytesToHex spanC9.traceID :=
  convert_nonstring_conversation_falls_back spanC9 [] (AttrValue.int 7)
    (fun s h => AttrValue.noConfusion h) (by decide)

/-- C10 counterexample: a span whose end timestamp (0) precedes its start
timestamp (2 ^ 63 + 1) yet whose converted duration is positive, because
the unsigned 64-bit difference wraps into the positive signed range when
start exceeds end by more than 2 ^ 63 nanoseconds. -/
theorem convert_duration_negative_cex :
    spanC10.endTimestamp < spanC10.startTimestamp ∧
    0 < (convertSpan spanC10 []).duration := by
  exact ⟨by decide, by decide⟩

/-- C10 amended: the converted duration is the unsigned 64-bit difference
of end and start reinterpreted as a signed nanosecond count: it is
congruent to end minus start modulo 2 ^ 64 and lies in the signed 64-bit
range, with no clamping; in particular a span whose end precedes its
start by at most 2 ^ 63 nanoseconds gets a negative duration (beyond
that the wraparound makes it positive, refuting the unconditional
claim). -/
theorem convert_duration_wraparound (span : Span)
    (resourceAttrs : List (String × AttrValue))
    (h1 : span.startTimestamp < 2 ^ 64) (h2 : span.endTimestamp < 2 ^ 64) :
    ((convertSpan span resourceAttrs).duration -
      ((span.endTimestamp : Int) - (span.startTimestamp : Int))) % 2 ^ 64 = 0 ∧
    -(2 ^ 63) ≤ (convertSpan span resourceAttrs).duration ∧
    (convertSpan span resourceAttrs).duration < 2 ^ 63 ∧
    (span.endTimestamp < span.startTimestamp →
      span.startTimestamp - span.endTimestamp ≤ 2 ^ 63 →
      (convertSpan span resourceAttrs).duration < 0) :=
  durationNs_spec span.startTimestamp span.endTimestamp h1 h2

/-- C10 witness: the wraparound characterization applied to the concrete
first span (start 100, end 200): congruence, range, and the negativity
implication hold there. -/
theorem convert_duration_wraparound_witness :
    ((convertSpan spanW1 []).duration -
      ((spanW1.endTimestamp : Int) - (spanW1.startTimestamp : Int))) % 2 ^ 64 = 0 ∧
    -(2 ^ 63) ≤ (convertSpan spanW1 []).duration ∧
    (convertSpan spanW1 []).duration < 2 ^ 63 ∧
    (spanW1.endTimestamp < spanW1.startTimestamp →
      spanW1.startTimestamp - spanW1.endTimestamp ≤ 2 ^ 63 →
      (convertSpan spanW1 []).duration < 0) :=
  convert_duration_wraparound spanW1 [] (by norm_num [spanW1]) (by norm_num [spanW1])

/-- C8 counterexample: a configuration with an empty endpoint makes
Validate return an error instead of substituting a fallback default, so
not every configuration value is repaired by a safe fallback. -/
theorem config_validate_error_cex :
    Config.Validate cfgNoEndpoint = Except.error "endpoint is required" := by
  rfl

/-- C8 amended: for a configuration whose endpoint and credential are
non-empty, validation succeeds and applies the fallback defaults to the
remaining fields: non-positive batch size becomes 100, non-positive
flush interval becomes 5 seconds, empty stream prefix becomes the
default prefix, and valid values are kept; an empty endpoint or
credential instead fails validation with an error (no fallback). -/
theorem config_validate_defaults (c : Config) (he : ¬ c.Endpoint = "")
    (hk : ¬ c.APIKey = "") :
    ∃ c2, Config.Validate c = Except.ok c2 ∧
      c2.Endpoint = c.Endpoint ∧ c2.APIKey = c.APIKey ∧
      (c.BatchSize ≤ 0 → c2.BatchSize = 100) ∧
      (0 < c.BatchSize → c2.BatchSize = c.BatchSize) ∧
      (c.FlushInterval ≤ 0 → c2.FlushInterval = 5000000000) ∧
      (0 < c.FlushInterval → c2.FlushInterval = c.FlushInterval) ∧
      (c.StreamPrefix = "" → c2.StreamPrefix = "agent-session-") ∧
      (¬ c.StreamPrefix = "" → c2.StreamPrefix = c.StreamPrefix) := by
  simp only [Config.Validate, if_neg he, if_neg hk]
  refine ⟨_, rfl, ?_⟩
  by_cases hb : c.BatchSize ≤ 0 <;> by_cases hf : c.FlushInterval ≤ 0 <;>
    by_cases hp : c.StreamPrefix = "" <;>
      simp [hb, hf, hp]

/-- C8 witness: the amended validation theorem at a concrete
configuration with unset batch size, flush interval and prefix. -/
theorem config_validate_defaults_witness :
    ∃ c2, Config.Validate cfgUnsetRest = Except.ok c2 ∧
      c2.Endpoint = cfgUnsetRest.Endpoint ∧ c2.APIKey = cfgUnsetRest.APIKey ∧
      (cfgUnsetRest.BatchSize ≤ 0 → c2.BatchSize = 100) ∧
      (0 < cfgUnsetRest.BatchSize → c2.BatchSize = cfgUnsetRest.BatchSize) ∧
      (cfgUnsetRest.FlushInterval ≤ 0 → c2.FlushInterval = 5000000000) ∧
      (0 < cfgUnsetRest.FlushInterval → c2.FlushInterval = cfgUnsetRest.FlushInterval) ∧
      (cfgUnsetRest.StreamPrefix = "" → c2.StreamPrefix = "agent-session-") ∧
      (¬ cfgUnsetRest.StreamPrefix = "" → c2.StreamPrefix = cfgUnsetRest.StreamPrefix) :=
  config_validate_defaults cfgUnsetRest (by decide) (by decide)

end S2
